import Mathlib

/-!
Verification of `bot/utils/time.py` (time/duration formatting utilities).

The module delegates calendar arithmetic to `dateutil.relativedelta` and
`datetime`; those algorithms are embedded here faithfully (two-datetime
constructor, `_set_months`, `_fix`, `__radd__`/`__add__` month shift with
day clamping, timedelta arithmetic).  Dates use the proleptic Gregorian
calendar with unbounded integer years (Python restricts years to 1..9999
and raises OverflowError outside; the claims concern valid in-range
inputs, where the arithmetic agrees).  ISO-8601 string parsing is
delegated to `dateutil.parser.isoparse` by the source and is excluded by
the spec; string inputs are therefore embedded already parsed, as a
wall-clock reading plus an optional UTC offset (in seconds).
-/

/-- Python `calendar.isleap`: Gregorian leap-year test. -/
def isleap (y : Int) : Bool := y % 4 == 0 && (y % 100 != 0 || y % 400 == 0)

/-- Number of days in month `m` (1..12) of a year whose leap status is `leap`
(`calendar.monthrange(year, m)[1]`). -/
def daysInMonthB (leap : Bool) (m : Nat) : Nat :=
  match m with
  | 1 => 31
  | 2 => if leap then 29 else 28
  | 3 => 31
  | 4 => 30
  | 5 => 31
  | 6 => 30
  | 7 => 31
  | 8 => 31
  | 9 => 30
  | 10 => 31
  | 11 => 30
  | 12 => 31
  | _ => 0

/-- Number of days in month `m` of year `y`. -/
def daysInMonth (y : Int) (m : Nat) : Nat := daysInMonthB (isleap y) m

/-- Days in the year before the first day of month `m`. -/
def daysBeforeMonthB (leap : Bool) : Nat → Nat
  | 0 => 0
  | m + 1 => daysBeforeMonthB leap m + daysInMonthB leap m

/-- Number of days in year `y`. -/
def daysInYear (y : Int) : Int := if isleap y then 366 else 365

/-- Days of the proleptic Gregorian calendar strictly before January 1 of
year `y`, counted from January 1 of year 1 (so `daysBeforeYear 1 = 0`);
the closed form of `datetime`'s `_days_before_year`, extended to all
integer years.  Lean's `Int` division is Euclidean, which agrees with
Python floor division for the positive divisors used here. -/
def daysBeforeYear (y : Int) : Int :=
  365 * (y - 1) + (y - 1) / 4 - (y - 1) / 100 + (y - 1) / 400

/-- A calendar date: year (unbounded), month, day. -/
structure Date where
  year : Int
  month : Nat
  day : Nat
deriving DecidableEq, Repr

/-- A wall-clock datetime (microsecond precision), mirroring the fields of
`datetime.datetime`. -/
structure DT where
  d : Date
  hour : Nat
  minute : Nat
  second : Nat
  usec : Nat
deriving DecidableEq, Repr

/-- Validity of a date: the invariants `datetime.date` enforces, minus the
year range (years are unbounded in this model). -/
def VDate (a : Date) : Prop :=
  1 ≤ a.month ∧ a.month ≤ 12 ∧ 1 ≤ a.day ∧ a.day ≤ daysInMonth a.year a.month

/-- Validity of a datetime. -/
def VDT (t : DT) : Prop :=
  VDate t.d ∧ t.hour < 24 ∧ t.minute < 60 ∧ t.second < 60 ∧ t.usec < 1000000

instance (a : Date) : Decidable (VDate a) := by unfold VDate; infer_instance
instance (t : DT) : Decidable (VDT t) := by unfold VDT; infer_instance

/-- Proleptic Gregorian ordinal of a date (`date.toordinal`): 0001-01-01 is
day 1. -/
def ordDate (a : Date) : Int :=
  daysBeforeYear a.year + (daysBeforeMonthB (isleap a.year) a.month : Int) + a.day

/-- Microseconds since midnight of a datetime's time-of-day part. -/
def todMicro (t : DT) : Int :=
  (((t.hour * 3600 + t.minute * 60 + t.second) * 1000000 + t.usec : Nat) : Int)

/-- Microseconds of a datetime since the epoch of the ordinal scale; the
absolute position used for exact `datetime` subtraction. -/
def dtMicro (t : DT) : Int := ordDate t.d * 86400000000 + todMicro t

/-- The day after a date, with month/year rollover. -/
def nextDay (a : Date) : Date :=
  if a.day < daysInMonth a.year a.month then ⟨a.year, a.month, a.day + 1⟩
  else if a.month < 12 then ⟨a.year, a.month + 1, 1⟩
  else ⟨a.year + 1, 1, 1⟩

/-- The day before a date, with month/year rollover. -/
def prevDay (a : Date) : Date :=
  if 1 < a.day then ⟨a.year, a.month, a.day - 1⟩
  else if 1 < a.month then ⟨a.year, a.month - 1, daysInMonth a.year (a.month - 1)⟩
  else ⟨a.year - 1, 12, 31⟩

/-- Iterate a function `n` times. -/
def iterN (f : α → α) : Nat → α → α
  | 0, a => a
  | n + 1, a => iterN f n (f a)

/-- Shift a date by a signed number of days (the effect of
`date + timedelta(days=n)`, realized by day stepping). -/
def addDays (a : Date) (n : Int) : Date :=
  if 0 ≤ n then iterN nextDay n.toNat a else iterN prevDay (-n).toNat a

/-- Shift a datetime by a signed number of microseconds (the effect of
`datetime + timedelta`): carry the time-of-day overflow into whole days
(floor division, as `timedelta` normalization does) and step the date. -/
def addMicro (t : DT) (delta : Int) : DT :=
  let tot := todMicro t + delta
  let days := tot / 86400000000
  let r := (tot % 86400000000).toNat
  let dd := addDays t.d days
  ⟨dd, r / 3600000000, r % 3600000000 / 60000000, r % 60000000 / 1000000, r % 1000000⟩

/-- Exact `datetime` subtraction, as total microseconds (the timedelta
`a - b`). -/
def subDT (a b : DT) : Int := dtMicro a - dtMicro b

/-- Python `datetime < datetime` (for two datetimes carrying the same UTC
offset): lexicographic on the wall-clock fields. -/
def pyLt (a b : DT) : Bool :=
  a.d.year < b.d.year ||
    (a.d.year == b.d.year &&
      (a.d.month < b.d.month ||
        (a.d.month == b.d.month &&
          (a.d.day < b.d.day ||
            (a.d.day == b.d.day &&
              (a.hour < b.hour ||
                (a.hour == b.hour &&
                  (a.minute < b.minute ||
                    (a.minute == b.minute &&
                      (a.second < b.second ||
                        (a.second == b.second && a.usec < b.usec)))))))))))

/-- EPOCH_AWARE: `datetime.fromtimestamp(0, timezone.utc)` = 1970-01-01T00:00:00+00:00. -/
def EPOCH_AWARE : DT := ⟨⟨1970, 1, 1⟩, 0, 0, 0, 0⟩

/-- The relative fields of a `dateutil.relativedelta` (the absolute
fields `year`/`month`/... and `weekday`/`leapdays` are always `None`/`0`
in every value this module constructs, so they are omitted). -/
structure RD where
  years : Int
  months : Int
  days : Int
  hours : Int
  minutes : Int
  seconds : Int
  microseconds : Int
deriving DecidableEq, Repr

/-- dateutil `_sign(x) = int(copysign(1, x))`: -1 for negative, else 1. -/
def pySign (x : Int) : Int := if x < 0 then -1 else 1

/-- One normalization stage of `relativedelta._fix`: if `|lo| > cap - 1`,
carry `divmod(lo * s, cap)` into the coarser unit.  Returns the new
(coarse, fine) pair. -/
def fixStage (cap : Int) (hi lo : Int) : Int × Int :=
  if cap - 1 < lo.natAbs then
    let s := pySign lo
    let dv := (lo * s) / cap
    let md := (lo * s) % cap
    (hi + dv * s, md * s)
  else (hi, lo)

/-- dateutil `relativedelta._fix`: cascade microseconds→seconds→minutes→
hours→days and months→years. -/
def fixRD (r : RD) : RD :=
  let p1 := fixStage 1000000 r.seconds r.microseconds
  let p2 := fixStage 60 r.minutes p1.1
  let p3 := fixStage 60 r.hours p2.1
  let p4 := fixStage 24 r.days p3.1
  let p5 := fixStage 12 r.years r.months
  ⟨p5.1, p5.2, p4.1, p4.2, p3.2, p2.2, p1.2⟩

/-- dateutil `relativedelta._set_months`: split a month count into
(years, months) with `|months| ≤ 11` and matching signs. -/
def setMonths (months : Int) : Int × Int :=
  if 11 < months.natAbs then
    let s := pySign months
    let dv := (months * s) / 12
    let md := (months * s) % 12
    (dv * s, md * s)
  else (0, months)

/-- The year/month step of `relativedelta.__add__` applied to a datetime:
add `ys` years and `ms` months (`|ms| ≤ 11`, single carry), then clamp the
day to the target month's length (`min(monthrange(year, month)[1], day)`).
Time fields pass through (the absolute fields are `None`). -/
def monthShiftYM (t : DT) (ys ms : Int) : DT :=
  let y0 := t.d.year + ys
  let m0 : Int := (t.d.month : Int) + ms
  let ym : Int × Int := if 12 < m0 then (y0 + 1, m0 - 12)
    else if m0 < 1 then (y0 - 1, m0 + 12) else (y0, m0)
  let mo := ym.2.toNat
  let da := min (daysInMonth ym.1 mo) t.d.day
  ⟨⟨ym.1, mo, da⟩, t.hour, t.minute, t.second, t.usec⟩

/-- Total microseconds of the timedelta
`timedelta(days=r.days, hours=r.hours, minutes=r.minutes, seconds=r.seconds,
microseconds=r.microseconds)` built by `relativedelta.__add__`. -/
def tdTotal (r : RD) : Int :=
  r.days * 86400000000 + r.hours * 3600000000 + r.minutes * 60000000 +
    r.seconds * 1000000 + r.microseconds

/-- dateutil `datetime + relativedelta` (`__radd__`) for a relativedelta
with no absolute/weekday/leapdays information: shift years and months with
day clamping, then add the timedelta of the remaining fields. -/
def rdAdd (t : DT) (r : RD) : DT :=
  addMicro (monthShiftYM t r.years r.months) (tdTotal r)

/-- The month-count adjustment loop of the two-datetime `relativedelta`
constructor: while `cmp dt1 (dt2 + months)` holds, move `months` by `inc`
and retry.  The Python loop terminates after at most one iteration (the
initial estimate is off by at most one month); it is modeled with ample
fuel.  The round-trip law below holds for every exit value, so no exit
condition is needed. -/
def adjustMonths (dt1 dt2 : DT) (cmp : DT → DT → Bool) (inc : Int) :
    Nat → Int → Int
  | 0, months => months
  | fuel + 1, months =>
    let ym := setMonths months
    let dtm := monthShiftYM dt2 ym.1 ym.2
    if cmp dt1 dtm then adjustMonths dt1 dt2 cmp inc fuel (months + inc)
    else months

/-- The two-datetime `dateutil.relativedelta(dt1, dt2)` constructor: month
estimate, overshoot adjustment, exact timedelta remainder against the
month-shifted `dt2`, then `_fix`.  `delta.seconds + delta.days * 86400` is
the floor of the total microseconds by 10^6 and `delta.microseconds` the
remainder, since `timedelta` normalizes with `0 ≤ seconds < 86400` and
`0 ≤ microseconds < 10^6`. -/
def rdFromDT (dt1 dt2 : DT) : RD :=
  let m0 := (dt1.d.year - dt2.d.year) * 12 + ((dt1.d.month : Int) - (dt2.d.month : Int))
  let cmp : DT → DT → Bool := if pyLt dt1 dt2 then (fun a b => pyLt b a) else pyLt
  let inc : Int := if pyLt dt1 dt2 then 1 else -1
  let months := adjustMonths dt1 dt2 cmp inc 100 m0
  let ym := setMonths months
  let dtm := monthShiftYM dt2 ym.1 ym.2
  let delta := subDT dt1 dtm
  fixRD ⟨ym.1, ym.2, 0, 0, 0, delta / 1000000, delta % 1000000⟩

/-- The keyword `relativedelta(years=…, months=…, weeks=…, days=…, …)`
constructor: `days += weeks * 7`, then `_fix`. -/
def mkRD (years months weeks days hours minutes seconds : Int) : RD :=
  fixRD ⟨years, months, days + weeks * 7, hours, minutes, seconds, 0⟩

/-- dateutil `relativedelta.__abs__`: component-wise absolute value fed
back through the constructor (hence `_fix`). -/
def absRD (r : RD) : RD :=
  fixRD ⟨r.years.natAbs, r.months.natAbs, r.days.natAbs, r.hours.natAbs,
    r.minutes.natAbs, r.seconds.natAbs, r.microseconds.natAbs⟩

/-- `relativedelta_to_timedelta(delta) = utcnow + delta - utcnow`, as total
microseconds of the resulting timedelta; `utcnow` is the injected current
instant. -/
def relativedelta_to_timedelta (r : RD) (utcnow : DT) : Int :=
  subDT (rdAdd utcnow r) utcnow

/-- The `TimestampFormats` enum of `bot/utils/time.py`. -/
inductive TimestampFormats
  | DATE_TIME
  | DAY_TIME
  | DATE_SHORT
  | DATE
  | TIME
  | TIME_SECONDS
  | RELATIVE
deriving DecidableEq, Repr

/-- The `.value` of each `TimestampFormats` member (its style character). -/
def TimestampFormats.val : TimestampFormats → String
  | .DATE_TIME => "f"
  | .DAY_TIME => "F"
  | .DATE_SHORT => "d"
  | .DATE => "D"
  | .TIME => "t"
  | .TIME_SECONDS => "T"
  | .RELATIVE => "R"

/-- A value passed as the `format` argument of `discord_timestamp`: either
an actual member of the enum, or any other runtime value (carried as its
display text), for which `format not in TimestampFormats` holds. -/
inductive FormatArg
  | member (f : TimestampFormats)
  | outside (txt : String)
deriving DecidableEq, Repr

/-- A raised Python exception, by class and payload. -/
inductive PyErr
  | valueError (msg : String)
  | attributeError (name : String)
  | typeError (msg : String)
deriving DecidableEq, Repr

/-- The `_stringify_time_unit(value, unit)` helper of `bot/utils/time.py`. -/
def _stringify_time_unit (value : Int) (unit : String) : String :=
  if unit == "seconds" && value == 0 then "0 seconds"
  else if value == 1 then "1 " ++ unit.dropRight 1
  else if value == 0 then "less than a " ++ unit.dropRight 1
  else toString value ++ " " ++ unit

/-- The component list `units` of `humanize_delta`, in source order. -/
def unitsOf (delta : RD) : List (String × Int) :=
  [("years", delta.years), ("months", delta.months), ("days", delta.days),
    ("hours", delta.hours), ("minutes", delta.minutes), ("seconds", delta.seconds)]

/-- The accumulation loop of `humanize_delta`: append the rendering of each
non-zero component and stop as soon as the current unit equals `precision`
or the emitted count reaches `max_units` (checked after appending). -/
def addUnits (precision : String) (max_units : Int) :
    List (String × Int) → Int → List String
  | [], _ => []
  | (unit, value) :: rest, count =>
    if value != 0 then
      let s := _stringify_time_unit value unit
      if unit == precision || max_units ≤ count + 1 then [s]
      else s :: addUnits precision max_units rest (count + 1)
    else
      if unit == precision || max_units ≤ count then []
      else addUnits precision max_units rest count

/-- Python `", ".join`. -/
def joinComma : List String → String
  | [] => ""
  | [a] => a
  | a :: rest => a ++ ", " ++ joinComma rest

/-- The final-join step of `humanize_delta`: merge the last two entries
with `" and "`, then comma-join. -/
def andMerge : List String → List String
  | [] => []
  | [a] => [a]
  | [a, b] => [a ++ " and " ++ b]
  | a :: rest => a :: andMerge rest

/-- `humanize_delta(delta, precision, max_units)` of `bot/utils/time.py`:
raises `ValueError("max_units must be positive")` for non-positive
`max_units`, otherwise walks years→months→days→hours→minutes→seconds. -/
def humanize_delta (delta : RD) (precision : String) (max_units : Int) :
    Except PyErr String :=
  if max_units ≤ 0 then .error (.valueError "max_units must be positive")
  else
    let time_strings := addUnits precision max_units (unitsOf delta) 0
    if time_strings.isEmpty then .ok (_stringify_time_unit 0 precision)
    else .ok (joinComma (andMerge time_strings))

/-- The `_normalise` helper: a naive reading (no offset) is tagged UTC
unchanged (`replace(tzinfo=utc)`); an aware reading is converted to UTC
(`astimezone(utc)`), i.e. the offset (seconds east) is subtracted from the
wall clock. -/
def _normalise (t : DT) (off : Option Int) : DT :=
  match off with
  | none => t
  | some o => addMicro t (-(o * 1000000))

/-- A runtime value accepted as the `timestamp` argument of
`discord_timestamp` (`ValidTimestamp`).  `posix` carries an exact rational
(int or float epoch seconds); `text` is an ISO-8601 string, carried
already parsed as wall clock plus optional UTC offset in seconds (parsing
is delegated to `dateutil.parser.isoparse`); `dtime` is a datetime with
optional offset; `dateOnly` a `datetime.date`; `tdelta` a `timedelta` in
total microseconds; `rdelta` a `relativedelta`. -/
inductive TSInput
  | posix (q : ℚ)
  | text (t : DT) (off : Option Int)
  | dtime (t : DT) (off : Option Int)
  | dateOnly (a : Date)
  | tdelta (usec : Int)
  | rdelta (r : RD)

/-- Python `int()` applied to an exact rational: truncation toward zero. -/
def pyInt (q : ℚ) : Int := q.num.tdiv q.den

/-- The integer that `discord_timestamp` embeds in the token: each input
class is converted to epoch seconds and truncated toward zero by `int()`.
The `str`/`datetime` branches compute
`(_normalise(x) - EPOCH_AWARE).total_seconds()` exactly (float rounding of
`total_seconds` is modeled as exact rational arithmetic); the `date`
branch uses `(x - EPOCH_AWARE.date()).total_seconds()`; `relativedelta`
goes through `relativedelta_to_timedelta`, anchored at the injected current
instant `now`. -/
def epochInt (ts : TSInput) (now : DT) : Int :=
  match ts with
  | .posix q => pyInt q
  | .text t off => (subDT (_normalise t off) EPOCH_AWARE).tdiv 1000000
  | .dtime t off => (subDT (_normalise t off) EPOCH_AWARE).tdiv 1000000
  | .dateOnly a => (ordDate a - ordDate EPOCH_AWARE.d) * 86400
  | .tdelta usec => usec.tdiv 1000000
  | .rdelta r => (relativedelta_to_timedelta r now).tdiv 1000000

/-- The token text produced by `discord_timestamp` once the format check
has passed: `f"<t:{int(timestamp)}:{format.value}>"`. -/
def dtsToken (ts : TSInput) (f : TimestampFormats) (now : DT) : String :=
  "<t:" ++ toString (epochInt ts now) ++ ":" ++ f.val ++ ">"

/-- `discord_timestamp(timestamp, format)` of `bot/utils/time.py`.  For a
`format` that is not a member, the source executes
`raise ValueError(f"Format can only be one of {', '.join(TimestampFormats.args)}, …")`;
evaluating the message accesses `TimestampFormats.args`, an attribute an
`Enum` class does not have (its namespace holds only the seven members),
so the f-string itself raises `AttributeError("args")` and the
`ValueError` is never constructed.  (On Python < 3.12 the membership test
`format not in TimestampFormats` already raises `TypeError` for
non-member values; no version raises `ValueError`.) -/
def discord_timestamp (ts : TSInput) (format : FormatArg) (now : DT) :
    Except PyErr String :=
  match format with
  | .member f => .ok (dtsToken ts f now)
  | .outside _ => .error (.attributeError "args")

/-- The value bound to `date_from` inside `format_infraction_with_duration`:
either a normalized `datetime` (when a reference was supplied) or the
`arrow.Arrow` object returned by `arrow.utcnow()` (when not).  `Arrow`
wraps a datetime but is not a `datetime.date` subclass. -/
inductive RefVal
  | dtv (t : DT)
  | arrowObj (t : DT)

/-- The `relativedelta(date_to, date_from)` call of
`format_infraction_with_duration`: dateutil's constructor first checks
`isinstance(dt1, datetime.date) and isinstance(dt2, datetime.date)` and
raises `TypeError("relativedelta only diffs datetime/date")` otherwise;
an `arrow.Arrow` fails that check. -/
def rdFromRef (dt1 : DT) (ref : RefVal) : Except PyErr RD :=
  match ref with
  | .dtv t => .ok (rdFromDT dt1 t)
  | .arrowObj _ => .error (.typeError "relativedelta only diffs datetime/date")

/-- `format_infraction_with_duration(date_to, date_from, max_units, absolute)`
of `bot/utils/time.py`.  `date_to`/`date_from` are ISO strings or
datetimes, carried parsed; `none` models a falsy value (`None` or `""`).
`utcnow` is the instant `arrow.utcnow()` would capture. -/
def format_infraction_with_duration (date_to : Option (DT × Option Int))
    (date_from : Option (DT × Option Int)) (max_units : Int) (absolute : Bool)
    (utcnow : DT) : Except PyErr (Option String) :=
  match date_to with
  | none => .ok none
  | some (t, off) =>
    let date_to_formatted := dtsToken (.dtime t off) .DATE_TIME utcnow
    let ref : RefVal := match date_from with
      | some (tf, offf) => .dtv (_normalise tf offf)
      | none => .arrowObj utcnow
    match rdFromRef (_normalise t off) ref with
    | .error e => .error e
    | .ok delta0 =>
      let delta := if absolute then absRD delta0 else delta0
      match humanize_delta delta "seconds" max_units with
      | .error e => .error e
      | .ok duration =>
        let duration_formatted := if duration == "" then "" else " (" ++ duration ++ ")"
        .ok (some (date_to_formatted ++ duration_formatted))

/-- `until_expiration(expiry)` of `bot/utils/time.py`: "Permanent" for a
falsy expiry, "Expired" when the normalized expiry is before the current
instant (`expiry < arrow.utcnow()`, evaluated through `Arrow.__gt__` on
the underlying datetimes), else the RELATIVE token. -/
def until_expiration (expiry : Option (DT × Option Int)) (utcnow : DT) : String :=
  match expiry with
  | none => "Permanent"
  | some (t, off) =>
    let e := _normalise t off
    if pyLt e utcnow then "Expired"
    else dtsToken (.dtime e none) .RELATIVE utcnow

/-- Greedy run of ASCII digits at the head of the character stream;
returns the digit value and the rest (none if no digit). -/
def takeDigits : List Char → Option (Nat × List Char)
  | [] => none
  | c :: cs =>
    if c.isDigit then
      let rec go (acc : Nat) : List Char → Nat × List Char
        | [] => (acc, [])
        | d :: ds => if d.isDigit then go (acc * 10 + (d.toNat - 48)) ds else (acc, d :: ds)
      some (go (c.toNat - 48) cs)
    else none

/-- Try to strip one of the alternation's tokens (in listed order, longest
first as in the source regex) from the head of the stream. -/
def stripTok : List String → List Char → Option (List Char)
  | [], _ => none
  | tok :: toks, cs =>
    if tok.toList.isPrefixOf cs then some (cs.drop tok.length) else stripTok toks cs

/-- One optional component of `_DURATION_REGEX`:
`((?P<unit>\d+?) ?(tok1|tok2|…) ?)?` — digits, an optional space, a unit
token, an optional trailing space (`trail` is false for the final seconds
component, whose group has no trailing `" ?"`).  If the component does not
match, it is skipped and captures 0 (`groupdict(default=0)`). -/
def component (toks : List String) (trail : Bool) (cs : List Char) :
    Nat × List Char :=
  match takeDigits cs with
  | none => (0, cs)
  | some (n, cs1) =>
    let cs2 := if cs1.head? == some ' ' then cs1.tail else cs1
    match stripTok toks cs2 with
    | none => (0, cs)
    | some cs3 =>
      if trail then (n, if cs3.head? == some ' ' then cs3.tail else cs3)
      else (n, cs3)

/-- `parse_duration_string(duration)` of `bot/utils/time.py`: fullmatch of
`_DURATION_REGEX` (each component optional, strict descending order),
`groupdict(default=0)`, then the keyword `relativedelta` constructor.
Returns `none` when the whole string is not consumed. -/
def parse_duration_string (duration : String) : Option RD :=
  let cs0 := duration.toList
  let (years, cs1) := component ["years", "year", "Y", "y"] true cs0
  let (months, cs2) := component ["months", "month", "m"] true cs1
  let (weeks, cs3) := component ["weeks", "week", "W", "w"] true cs2
  let (days, cs4) := component ["days", "day", "D", "d"] true cs3
  let (hours, cs5) := component ["hours", "hour", "H", "h"] true cs4
  let (minutes, cs6) := component ["minutes", "minute", "M"] true cs5
  let (seconds, cs7) := component ["seconds", "second", "S", "s"] false cs6
  if cs7.isEmpty then
    some (mkRD years months weeks days hours minutes seconds)
  else none

/-- Recover (month, day-of-month) from a day-of-year count (the inverse of
`daysBeforeMonthB _ m + d`); used to prove injectivity of the ordinal. -/
def moD (l : Bool) (doy : Nat) : Nat × Nat :=
  if doy ≤ daysBeforeMonthB l 2 then (1, doy)
  else if doy ≤ daysBeforeMonthB l 3 then (2, doy - daysBeforeMonthB l 2)
  else if doy ≤ daysBeforeMonthB l 4 then (3, doy - daysBeforeMonthB l 3)
  else if doy ≤ daysBeforeMonthB l 5 then (4, doy - daysBeforeMonthB l 4)
  else if doy ≤ daysBeforeMonthB l 6 then (5, doy - daysBeforeMonthB l 5)
  else if doy ≤ daysBeforeMonthB l 7 then (6, doy - daysBeforeMonthB l 6)
  else if doy ≤ daysBeforeMonthB l 8 then (7, doy - daysBeforeMonthB l 7)
  else if doy ≤ daysBeforeMonthB l 9 then (8, doy - daysBeforeMonthB l 8)
  else if doy ≤ daysBeforeMonthB l 10 then (9, doy - daysBeforeMonthB l 9)
  else if doy ≤ daysBeforeMonthB l 11 then (10, doy - daysBeforeMonthB l 10)
  else if doy ≤ daysBeforeMonthB l 12 then (11, doy - daysBeforeMonthB l 11)
  else (12, doy - daysBeforeMonthB l 12)

/-- Convenience constructor for concrete datetimes. -/
def mkdt (y : Int) (mo dd h mi s : Nat) (us : Nat := 0) : DT := ⟨⟨y, mo, dd⟩, h, mi, s, us⟩


theorem todMicro_nonneg (t : DT) : 0 ≤ todMicro t := Int.natCast_nonneg _

theorem todMicro_lt (t : DT) (h : VDT t) : todMicro t < 86400000000 := by
  obtain ⟨-, h1, h2, h3, h4⟩ := h
  unfold todMicro
  have : (t.hour * 3600 + t.minute * 60 + t.second) * 1000000 + t.usec < 86400000000 := by
    omega
  exact_mod_cast this

theorem dimB_pos (l : Bool) (m : Nat) (h1 : 1 ≤ m) (h2 : m ≤ 12) :
    1 ≤ daysInMonthB l m := by
  interval_cases m <;> cases l <;> decide

theorem ordDate_mk (y : Int) (m dd : Nat) :
    ordDate ⟨y, m, dd⟩ = daysBeforeYear y + (daysBeforeMonthB (isleap y) m : Int) + dd := rfl

theorem VDate_mk (y : Int) (m dd : Nat) :
    VDate ⟨y, m, dd⟩ ↔ 1 ≤ m ∧ m ≤ 12 ∧ 1 ≤ dd ∧ dd ≤ daysInMonthB (isleap y) m :=
  Iff.rfl

theorem dbmB_succ (l : Bool) (m : Nat) :
    daysBeforeMonthB l (m + 1) = daysBeforeMonthB l m + daysInMonthB l m := rfl

theorem dimB_one (l : Bool) : daysInMonthB l 1 = 31 := rfl

theorem dimB_twelve (l : Bool) : daysInMonthB l 12 = 31 := rfl

theorem dbmB_one (l : Bool) : daysBeforeMonthB l 1 = 0 := rfl

theorem valid_nextDay (a : Date) (h : VDate a) : VDate (nextDay a) := by
  obtain ⟨y, m, dd⟩ := a
  rw [VDate_mk] at h
  obtain ⟨h1, h2, h3, h4⟩ := h
  unfold nextDay daysInMonth
  dsimp only
  split_ifs with hd hm
  · rw [VDate_mk]
    exact ⟨h1, h2, by omega, by omega⟩
  · rw [VDate_mk]
    exact ⟨by omega, by omega, le_refl 1, dimB_pos _ _ (by omega) (by omega)⟩
  · rw [VDate_mk]
    refine ⟨by omega, by omega, le_refl 1, ?_⟩
    rw [dimB_one]
    omega

theorem valid_prevDay (a : Date) (h : VDate a) : VDate (prevDay a) := by
  obtain ⟨y, m, dd⟩ := a
  rw [VDate_mk] at h
  obtain ⟨h1, h2, h3, h4⟩ := h
  unfold prevDay daysInMonth
  dsimp only
  split_ifs with hd hm
  · rw [VDate_mk]
    exact ⟨h1, h2, by omega, by omega⟩
  · rw [VDate_mk]
    exact ⟨by omega, by omega, dimB_pos _ _ (by omega) (by omega), le_refl _⟩
  · rw [VDate_mk]
    exact ⟨by omega, by omega, by omega, by rw [dimB_twelve]⟩

theorem dby_step (y : Int) : daysBeforeYear (y + 1) = daysBeforeYear y + daysInYear y := by
  unfold daysBeforeYear daysInYear
  split_ifs with h
  · simp only [isleap, Bool.and_eq_true, beq_iff_eq, Bool.or_eq_true, bne_iff_ne] at h
    omega
  · simp only [isleap, Bool.and_eq_true, beq_iff_eq, Bool.or_eq_true, bne_iff_ne] at h
    push_neg at h
    omega

theorem dby_mono {y z : Int} (h : y ≤ z) : daysBeforeYear y ≤ daysBeforeYear z := by
  unfold daysBeforeYear; omega

theorem dby_step_le {y z : Int} (h : y < z) :
    daysBeforeYear y + 365 ≤ daysBeforeYear z := by
  unfold daysBeforeYear; omega

theorem dbm12_dim12 (y : Int) :
    (daysBeforeMonthB (isleap y) 12 + daysInMonthB (isleap y) 12 : Int) = daysInYear y := by
  unfold daysInYear
  cases h : isleap y <;> simp [h] <;> decide

theorem ord_nextDay (a : Date) (h : VDate a) : ordDate (nextDay a) = ordDate a + 1 := by
  obtain ⟨y, m, dd⟩ := a
  rw [VDate_mk] at h
  obtain ⟨h1, h2, h3, h4⟩ := h
  unfold nextDay daysInMonth
  dsimp only
  split_ifs with hd hm
  · rw [ordDate_mk, ordDate_mk]
    push_cast
    omega
  · rw [ordDate_mk, ordDate_mk, dbmB_succ]
    push_cast
    omega
  · have hm12 : m = 12 := by omega
    have hd31 : dd = 31 := by
      rw [hm12] at h4 hd
      rw [dimB_twelve] at h4 hd
      omega
    subst hm12 hd31
    rw [ordDate_mk, ordDate_mk, dby_step y, dbmB_one]
    have h12 := dbm12_dim12 y
    rw [dimB_twelve] at h12
    push_cast at h12 ⊢
    omega

theorem ord_prevDay (a : Date) (h : VDate a) : ordDate (prevDay a) = ordDate a - 1 := by
  obtain ⟨y, m, dd⟩ := a
  rw [VDate_mk] at h
  obtain ⟨h1, h2, h3, h4⟩ := h
  unfold prevDay daysInMonth
  dsimp only
  split_ifs with hd hm
  · rw [ordDate_mk, ordDate_mk]
    omega
  · have hstep : daysBeforeMonthB (isleap y) m =
        daysBeforeMonthB (isleap y) (m - 1) + daysInMonthB (isleap y) (m - 1) := by
      have hsub : m = (m - 1) + 1 := by omega
      rw [hsub, dbmB_succ]
      simp
    have hd1 : dd = 1 := by omega
    subst hd1
    rw [ordDate_mk, ordDate_mk, hstep]
    push_cast
    omega
  · have hm1 : m = 1 := by omega
    have hd1 : dd = 1 := by omega
    subst hm1 hd1
    rw [ordDate_mk, ordDate_mk, dbmB_one]
    have hstep := dby_step (y - 1)
    have hy : y - 1 + 1 = y := by omega
    rw [hy] at hstep
    have h12 := dbm12_dim12 (y - 1)
    rw [dimB_twelve] at h12
    push_cast at h12 ⊢
    omega

theorem doy_bounds (l : Bool) : ∀ (m : Fin 13) (dd : Fin 32),
    1 ≤ m.val → 1 ≤ dd.val → dd.val ≤ daysInMonthB l m.val →
    1 ≤ daysBeforeMonthB l m.val + dd.val ∧
      daysBeforeMonthB l m.val + dd.val ≤ (if l then 366 else 365) := by
  cases l <;> decide

theorem moD_doy (l : Bool) : ∀ (m : Fin 13) (dd : Fin 32),
    1 ≤ m.val → 1 ≤ dd.val → dd.val ≤ daysInMonthB l m.val →
    moD l (daysBeforeMonthB l m.val + dd.val) = (m.val, dd.val) := by
  cases l <;> decide

theorem dimB_le_31 (l : Bool) : ∀ (m : Fin 13), daysInMonthB l m.val ≤ 31 := by
  cases l <;> decide

theorem ord_year_bounds (a : Date) (h : VDate a) :
    daysBeforeYear a.year < ordDate a ∧ ordDate a ≤ daysBeforeYear (a.year + 1) := by
  obtain ⟨y, m, dd⟩ := a
  rw [VDate_mk] at h
  obtain ⟨h1, h2, h3, h4⟩ := h
  have hdd32 : dd < 32 := by
    have := dimB_le_31 (isleap y) ⟨m, by omega⟩
    dsimp only at this
    omega
  have hb := doy_bounds (isleap y) ⟨m, by omega⟩ ⟨dd, hdd32⟩ h1 h3 h4
  dsimp only at hb
  have hstep := dby_step y
  have hcast : ((if isleap y then 366 else 365 : Nat) : Int) = daysInYear y := by
    unfold daysInYear
    cases isleap y <;> simp
  have hb2 : (daysBeforeMonthB (isleap y) m : Int) + dd ≤ daysInYear y := by
    rw [← hcast]
    exact_mod_cast hb.2
  have hb1 : 1 ≤ (daysBeforeMonthB (isleap y) m : Int) + dd := by exact_mod_cast hb.1
  show daysBeforeYear y < ordDate ⟨y, m, dd⟩ ∧ ordDate ⟨y, m, dd⟩ ≤ daysBeforeYear (y + 1)
  rw [ordDate_mk]
  omega

theorem ord_inj (a b : Date) (ha : VDate a) (hb : VDate b)
    (h : ordDate a = ordDate b) : a = b := by
  have hya := ord_year_bounds a ha
  have hyb := ord_year_bounds b hb
  have hy : a.year = b.year := by
    by_contra hne
    rcases lt_or_gt_of_ne hne with hlt | hlt
    · have h1 : a.year + 1 ≤ b.year := by omega
      have := dby_mono h1
      omega
    · have h1 : b.year + 1 ≤ a.year := by omega
      have := dby_mono h1
      omega
  obtain ⟨ya, ma, da⟩ := a
  obtain ⟨yb, mb, db⟩ := b
  simp only at hy
  subst hy
  rw [VDate_mk] at ha hb
  rw [ordDate_mk, ordDate_mk] at h
  have hnat : daysBeforeMonthB (isleap ya) ma + da =
      daysBeforeMonthB (isleap ya) mb + db := by omega
  have hda32 : da < 32 := by
    have := dimB_le_31 (isleap ya) ⟨ma, by omega⟩
    dsimp only at this
    omega
  have hdb32 : db < 32 := by
    have := dimB_le_31 (isleap ya) ⟨mb, by omega⟩
    dsimp only at this
    omega
  have hma := moD_doy (isleap ya) ⟨ma, by omega⟩ ⟨da, hda32⟩ ha.1 ha.2.2.1 ha.2.2.2
  have hmb := moD_doy (isleap ya) ⟨mb, by omega⟩ ⟨db, hdb32⟩ hb.1 hb.2.2.1 hb.2.2.2
  dsimp only at hma hmb
  rw [hnat] at hma
  have hpair : (ma, da) = (mb, db) := hma.symm.trans hmb
  have hfst : ma = mb := congrArg Prod.fst hpair
  have hsnd : da = db := congrArg Prod.snd hpair
  rw [hfst, hsnd]

theorem VDT_mk (d0 : Date) (h0 m0 s0 u0 : Nat) :
    VDT ⟨d0, h0, m0, s0, u0⟩ ↔
      VDate d0 ∧ h0 < 24 ∧ m0 < 60 ∧ s0 < 60 ∧ u0 < 1000000 :=
  Iff.rfl

theorem todMicro_mk (d0 : Date) (h0 m0 s0 u0 : Nat) :
    todMicro ⟨d0, h0, m0, s0, u0⟩ =
      (((h0 * 3600 + m0 * 60 + s0) * 1000000 + u0 : Nat) : Int) := rfl

theorem reach_next : ∀ (n : Nat) (a b : Date), VDate a → VDate b →
    ordDate b = ordDate a + n → iterN nextDay n a = b := by
  intro n
  induction n with
  | zero =>
    intro a b ha hb h
    have h0 : ordDate a = ordDate b := by omega
    exact ord_inj a b ha hb h0
  | succ k ih =>
    intro a b ha hb h
    have hstep : iterN nextDay (k + 1) a = iterN nextDay k (nextDay a) := rfl
    rw [hstep]
    refine ih (nextDay a) b (valid_nextDay a ha) hb ?_
    rw [ord_nextDay a ha]
    push_cast at h ⊢
    omega

theorem reach_prev : ∀ (n : Nat) (a b : Date), VDate a → VDate b →
    ordDate b = ordDate a - n → iterN prevDay n a = b := by
  intro n
  induction n with
  | zero =>
    intro a b ha hb h
    have h0 : ordDate a = ordDate b := by omega
    exact ord_inj a b ha hb h0
  | succ k ih =>
    intro a b ha hb h
    have hstep : iterN prevDay (k + 1) a = iterN prevDay k (prevDay a) := rfl
    rw [hstep]
    refine ih (prevDay a) b (valid_prevDay a ha) hb ?_
    rw [ord_prevDay a ha]
    push_cast at h ⊢
    omega

theorem addDays_reach (a b : Date) (ha : VDate a) (hb : VDate b) :
    addDays a (ordDate b - ordDate a) = b := by
  unfold addDays
  split_ifs with h
  · refine reach_next _ a b ha hb ?_
    omega
  · refine reach_prev _ a b ha hb ?_
    omega

theorem addMicro_exact (t b : DT) (ht : VDate t.d) (hb : VDT b) :
    addMicro t (subDT b t) = b := by
  obtain ⟨bd, bh, bmi, bs, bu⟩ := b
  rw [VDT_mk] at hb
  obtain ⟨hbd, hb1, hb2, hb3, hb4⟩ := hb
  have h0 : (0:Int) ≤ todMicro ⟨bd, bh, bmi, bs, bu⟩ := todMicro_nonneg _
  have h1 : todMicro ⟨bd, bh, bmi, bs, bu⟩ < 86400000000 :=
    todMicro_lt _ (by rw [VDT_mk]; exact ⟨hbd, hb1, hb2, hb3, hb4⟩)
  have htot : todMicro t + subDT ⟨bd, bh, bmi, bs, bu⟩ t =
      (ordDate bd - ordDate t.d) * 86400000000 + todMicro ⟨bd, bh, bmi, bs, bu⟩ := by
    unfold subDT dtMicro
    ring
  have hdays : (todMicro t + subDT ⟨bd, bh, bmi, bs, bu⟩ t) / 86400000000 =
      ordDate bd - ordDate t.d := by
    rw [htot]
    omega
  have hmod : (todMicro t + subDT ⟨bd, bh, bmi, bs, bu⟩ t) % 86400000000 =
      todMicro ⟨bd, bh, bmi, bs, bu⟩ := by
    rw [htot]
    omega
  show (⟨addDays t.d ((todMicro t + subDT ⟨bd, bh, bmi, bs, bu⟩ t) / 86400000000),
      ((todMicro t + subDT ⟨bd, bh, bmi, bs, bu⟩ t) % 86400000000).toNat / 3600000000,
      ((todMicro t + subDT ⟨bd, bh, bmi, bs, bu⟩ t) % 86400000000).toNat % 3600000000 / 60000000,
      ((todMicro t + subDT ⟨bd, bh, bmi, bs, bu⟩ t) % 86400000000).toNat % 60000000 / 1000000,
      ((todMicro t + subDT ⟨bd, bh, bmi, bs, bu⟩ t) % 86400000000).toNat % 1000000⟩ : DT) =
    ⟨bd, bh, bmi, bs, bu⟩
  rw [hdays, hmod, todMicro_mk, Int.toNat_natCast]
  have hdate : addDays t.d (ordDate bd - ordDate t.d) = bd := addDays_reach t.d bd ht hbd
  simp only [DT.mk.injEq]
  refine ⟨hdate, by omega, by omega, by omega, by omega⟩

theorem addMicro_zero (t : DT) (h : VDT t) : addMicro t 0 = t := by
  have hz : subDT t t = 0 := by unfold subDT; ring
  rw [← hz]
  exact addMicro_exact t t h.1 h

theorem fixStage_eq (cap hi lo : Int) :
    (fixStage cap hi lo).1 * cap + (fixStage cap hi lo).2 = hi * cap + lo := by
  unfold fixStage pySign
  split_ifs with hg hneg
  · dsimp only
    linear_combination -Int.ediv_add_emod (lo * -1) cap
  · dsimp only
    linear_combination Int.ediv_add_emod (lo * 1) cap
  · dsimp only

theorem fixStage_noop (cap hi lo : Int) (h : (lo.natAbs : Int) ≤ cap - 1) :
    fixStage cap hi lo = (hi, lo) := by
  unfold fixStage
  rw [if_neg (by omega)]

theorem tdTotal_fixRD (r : RD) : tdTotal (fixRD r) = tdTotal r := by
  have h1 := fixStage_eq 1000000 r.seconds r.microseconds
  have h2 := fixStage_eq 60 r.minutes (fixStage 1000000 r.seconds r.microseconds).1
  have h3 := fixStage_eq 60 r.hours
    (fixStage 60 r.minutes (fixStage 1000000 r.seconds r.microseconds).1).1
  have h4 := fixStage_eq 24 r.days
    (fixStage 60 r.hours (fixStage 60 r.minutes
      (fixStage 1000000 r.seconds r.microseconds).1).1).1
  unfold tdTotal fixRD
  dsimp only
  omega

theorem fixRD_ym (r : RD) (h : r.months.natAbs ≤ 11) :
    (fixRD r).years = r.years ∧ (fixRD r).months = r.months := by
  unfold fixRD
  dsimp only
  rw [fixStage_noop 12 r.years r.months (by omega)]
  exact ⟨rfl, rfl⟩

theorem setMonths_le (M : Int) : ((setMonths M).2).natAbs ≤ 11 := by
  unfold setMonths pySign
  split_ifs with hg hneg
  · dsimp only
    have ha : 0 ≤ (M * -1) % 12 := Int.emod_nonneg _ (by norm_num)
    have hb : (M * -1) % 12 < 12 := Int.emod_lt_of_pos _ (by norm_num)
    omega
  · dsimp only
    have ha : 0 ≤ (M * 1) % 12 := Int.emod_nonneg _ (by norm_num)
    have hb : (M * 1) % 12 < 12 := Int.emod_lt_of_pos _ (by norm_num)
    omega
  · dsimp only
    omega

theorem monthShift_valid (t : DT) (ys ms : Int) (ht : VDate t.d)
    (hms : ms.natAbs ≤ 11) : VDate (monthShiftYM t ys ms).d := by
  obtain ⟨⟨y, m, dd⟩, th, tmi, ts, tu⟩ := t
  rw [VDate_mk] at ht
  obtain ⟨h1, h2, h3, h4⟩ := ht
  unfold monthShiftYM
  dsimp only
  split_ifs with hgt hlt
  · dsimp only
    rw [VDate_mk]
    have hmo1 : 1 ≤ ((m : Int) + ms - 12).toNat := by omega
    have hmo2 : ((m : Int) + ms - 12).toNat ≤ 12 := by omega
    have hdim : 1 ≤ daysInMonth (y + ys + 1) ((m : Int) + ms - 12).toNat :=
      dimB_pos _ _ hmo1 hmo2
    have heq : daysInMonth (y + ys + 1) ((m : Int) + ms - 12).toNat =
        daysInMonthB (isleap (y + ys + 1)) ((m : Int) + ms - 12).toNat := rfl
    exact ⟨hmo1, hmo2, by omega, by omega⟩
  · dsimp only
    rw [VDate_mk]
    have hmo1 : 1 ≤ ((m : Int) + ms + 12).toNat := by omega
    have hmo2 : ((m : Int) + ms + 12).toNat ≤ 12 := by omega
    have hdim : 1 ≤ daysInMonth (y + ys - 1) ((m : Int) + ms + 12).toNat :=
      dimB_pos _ _ hmo1 hmo2
    have heq : daysInMonth (y + ys - 1) ((m : Int) + ms + 12).toNat =
        daysInMonthB (isleap (y + ys - 1)) ((m : Int) + ms + 12).toNat := rfl
    exact ⟨hmo1, hmo2, by omega, by omega⟩
  · dsimp only
    rw [VDate_mk]
    have hmo1 : 1 ≤ ((m : Int) + ms).toNat := by omega
    have hmo2 : ((m : Int) + ms).toNat ≤ 12 := by omega
    have hdim : 1 ≤ daysInMonth (y + ys) ((m : Int) + ms).toNat :=
      dimB_pos _ _ hmo1 hmo2
    have heq : daysInMonth (y + ys) ((m : Int) + ms).toNat =
        daysInMonthB (isleap (y + ys)) ((m : Int) + ms).toNat := rfl
    exact ⟨hmo1, hmo2, by omega, by omega⟩

theorem rd_construct_roundtrip (dt1 dt2 : DT) (h1 : VDT dt1) (h2 : VDT dt2)
    (M : Int) :
    rdAdd dt2 (fixRD ⟨(setMonths M).1, (setMonths M).2, 0, 0, 0,
      subDT dt1 (monthShiftYM dt2 (setMonths M).1 (setMonths M).2) / 1000000,
      subDT dt1 (monthShiftYM dt2 (setMonths M).1 (setMonths M).2) % 1000000⟩) =
      dt1 := by
  have hms := setMonths_le M
  have hdtm : VDate (monthShiftYM dt2 (setMonths M).1 (setMonths M).2).d :=
    monthShift_valid dt2 _ _ h2.1 hms
  set dtm := monthShiftYM dt2 (setMonths M).1 (setMonths M).2 with hdtm_def
  set r0 : RD := ⟨(setMonths M).1, (setMonths M).2, 0, 0, 0,
    subDT dt1 dtm / 1000000, subDT dt1 dtm % 1000000⟩ with hr0
  have hym := fixRD_ym r0 (by rw [hr0]; exact hms)
  have htd := tdTotal_fixRD r0
  have htd0 : tdTotal r0 = subDT dt1 dtm := by
    rw [hr0]
    unfold tdTotal
    dsimp only
    omega
  unfold rdAdd
  rw [hym.1, hym.2, htd, htd0, hr0]
  dsimp only
  rw [← hdtm_def]
  exact addMicro_exact dtm dt1 hdtm h1

/-- C1: for every pair of valid (UTC-normalized, hence same-offset aware)
instants, adding the calendar delta computed by the two-datetime
`relativedelta` constructor from `anchor` to `target` back onto `anchor`
yields exactly `target`; the computation is total (no exception) on such
inputs. -/
theorem claim_C1 (anchor target : DT) (ha : VDT anchor) (ht : VDT target) :
    rdAdd anchor (rdFromDT target anchor) = target :=
  rd_construct_roundtrip target anchor ht ha
    (adjustMonths target anchor
      (if pyLt target anchor then (fun a b => pyLt b a) else pyLt)
      (if pyLt target anchor then 1 else -1) 100
      ((target.d.year - anchor.d.year) * 12 +
        ((target.d.month : Int) - (anchor.d.month : Int))))

/-- Witness for C1: a concrete month-end pair (the delta from
2015-01-31T23:59:59.999999 to 2015-02-28T00:00:00 involves day clamping)
satisfies the hypotheses and the round-trip law. -/
theorem claim_C1_witness :
    VDT (mkdt 2015 1 31 23 59 59 999999) ∧ VDT (mkdt 2015 2 28 0 0 0) ∧
      rdAdd (mkdt 2015 1 31 23 59 59 999999)
        (rdFromDT (mkdt 2015 2 28 0 0 0) (mkdt 2015 1 31 23 59 59 999999)) =
        mkdt 2015 2 28 0 0 0 :=
  ⟨by decide, by decide,
    claim_C1 (mkdt 2015 1 31 23 59 59 999999) (mkdt 2015 2 28 0 0 0)
      (by decide) (by decide)⟩

theorem addUnits_len (p : String) (mu : Int) :
    ∀ (l : List (String × Int)) (c : Int), c < mu →
      ((addUnits p mu l c).length : Int) ≤ mu - c := by
  intro l
  induction l with
  | nil =>
    intro c h
    simp [addUnits]
    omega
  | cons uv rest ih =>
    intro c h
    obtain ⟨unit, value⟩ := uv
    unfold addUnits
    split_ifs with hv hb hb2
    · simp only [List.length_cons, List.length_nil]
      push_cast
      omega
    · simp only [Bool.or_eq_true, beq_iff_eq, decide_eq_true_eq, not_or] at hb
      have hc : c + 1 < mu := by omega
      have := ih (c + 1) hc
      simp only [List.length_cons]
      push_cast at this ⊢
      omega
    · simp only [List.length_nil]
      omega
    · simp only [Bool.or_eq_true, beq_iff_eq, decide_eq_true_eq, not_or] at hb2
      exact ih c h

/-- C2: a `format` value outside the seven `TimestampFormats` members does
not produce the intended `ValueError`: building the error message accesses
the non-existent `TimestampFormats.args`, so `AttributeError("args")` is
raised instead (a code bug); every recognized member proceeds without
raising. -/
theorem claim_C2 (ts : TSInput) (now : DT) :
    (∀ txt, discord_timestamp ts (.outside txt) now =
        .error (.attributeError "args")) ∧
    (∀ f, discord_timestamp ts (.member f) now = .ok (dtsToken ts f now)) :=
  ⟨fun _ => rfl, fun _ => rfl⟩

/-- C3: the walk of `humanize_delta` over years→months→days→hours→minutes→
seconds never emits more than `max_units` unit-phrases, and
`humanize_delta({days: 2, hours: 2}, "seconds", 1) = "2 days"`. -/
theorem claim_C3 :
    (∀ (delta : RD) (precision : String) (max_units : Int), 0 < max_units →
        ((addUnits precision max_units (unitsOf delta) 0).length : Int) ≤
          max_units) ∧
    humanize_delta ⟨0, 0, 2, 2, 0, 0, 0⟩ "seconds" 1 = .ok "2 days" := by
  constructor
  · intro delta precision max_units h
    have := addUnits_len precision max_units (unitsOf delta) 0 (by omega)
    omega
  · rfl

/-- Witness for C3: the unit-cap bound instantiated at the example delta
with `max_units = 1 > 0`. -/
theorem claim_C3_witness :
    (0 : Int) < 1 ∧
      ((addUnits "seconds" 1 (unitsOf ⟨0, 0, 2, 2, 0, 0, 0⟩) 0).length : Int) ≤ 1 :=
  ⟨by decide, claim_C3.1 ⟨0, 0, 2, 2, 0, 0, 0⟩ "seconds" 1 (by decide)⟩

/-- C4: the per-unit rendering rule of `_stringify_time_unit` ("0 seconds"
for zero seconds, singular for 1, "less than a …" for zero non-seconds,
plain "value unit" otherwise), and the all-zero-delta results of
`humanize_delta` for precisions "seconds" and "minutes". -/
theorem claim_C4 :
    (∀ (value : Int) (unit : String), unit = "seconds" → value = 0 →
        _stringify_time_unit value unit = "0 seconds") ∧
    (∀ (value : Int) (unit : String), value = 1 →
        _stringify_time_unit value unit = "1 " ++ unit.dropRight 1) ∧
    (∀ (value : Int) (unit : String), value = 0 → unit ≠ "seconds" →
        _stringify_time_unit value unit = "less than a " ++ unit.dropRight 1) ∧
    (∀ (value : Int) (unit : String), value ≠ 0 → value ≠ 1 →
        _stringify_time_unit value unit = toString value ++ " " ++ unit) ∧
    humanize_delta ⟨0, 0, 0, 0, 0, 0, 0⟩ "seconds" 6 = .ok "0 seconds" ∧
    humanize_delta ⟨0, 0, 0, 0, 0, 0, 0⟩ "minutes" 6 = .ok "less than a minute" := by
  refine ⟨?_, ?_, ?_, ?_, rfl, rfl⟩
  · intro value unit h1 h2
    subst h1
    subst h2
    rfl
  · intro value unit h
    subst h
    unfold _stringify_time_unit
    simp
  · intro value unit h1 h2
    subst h1
    unfold _stringify_time_unit
    have hne : (unit == "seconds") = false := by
      simp [h2]
    simp [hne]
  · intro value unit h1 h2
    unfold _stringify_time_unit
    have hv0 : (value == 0) = false := by simp [h1]
    have hv1 : (value == 1) = false := by simp [h2]
    simp [hv0, hv1]

/-- Witness for C4: the singular rule instantiated at (1, "hours") and the
zero-nonseconds rule at (0, "minutes"). -/
theorem claim_C4_witness :
    _stringify_time_unit 1 "hours" = "1 hour" ∧
      _stringify_time_unit 0 "minutes" = "less than a minute" :=
  ⟨claim_C4.2.1 1 "hours" rfl,
    claim_C4.2.2.1 0 "minutes" rfl (by decide)⟩

/-- C5: `humanize_delta` fails with `ValueError("max_units must be
positive")` exactly when `max_units ≤ 0`, and succeeds (returns some
string) for every positive `max_units`. -/
theorem claim_C5 (delta : RD) (precision : String) (max_units : Int) :
    (humanize_delta delta precision max_units =
        .error (.valueError "max_units must be positive") ↔ max_units ≤ 0) ∧
    (0 < max_units →
      ∃ s, humanize_delta delta precision max_units = .ok s) := by
  by_cases h : max_units ≤ 0
  · unfold humanize_delta
    rw [if_pos h]
    exact ⟨by simp [h], fun hpos => absurd hpos (by omega)⟩
  · unfold humanize_delta
    rw [if_neg h]
    refine ⟨iff_of_false ?_ h, fun _ => ?_⟩
    · dsimp only
      split_ifs <;> simp
    · dsimp only
      split_ifs
      · exact ⟨_, rfl⟩
      · exact ⟨_, rfl⟩

/-- Witness for C5: at `max_units = 3 > 0`, `humanize_delta` returns a
success value. -/
theorem claim_C5_witness :
    (0 : Int) < 3 ∧
      ∃ s, humanize_delta ⟨0, 0, 2, 2, 0, 0, 0⟩ "hours" 3 = .ok s :=
  ⟨by decide, (claim_C5 ⟨0, 0, 2, 2, 0, 0, 0⟩ "hours" 3).2 (by decide)⟩

/-- C10: `parse_duration_string` applied to the empty string matches the
all-optional grammar and returns the all-zero `relativedelta`, not `None`. -/
theorem claim_C10 :
    parse_duration_string "" = some ⟨0, 0, 0, 0, 0, 0, 0⟩ ∧
      parse_duration_string "" ≠ none := by
  constructor
  · rfl
  · intro h
    have h0 : parse_duration_string "" = some ⟨0, 0, 0, 0, 0, 0, 0⟩ := rfl
    rw [h0] at h
    exact Option.noConfusion h

/-- C6: for every input and recognized format, `discord_timestamp` emits
exactly `"<t:" ++ int-epoch ++ ":" ++ style ++ ">"`, where the style
character is one of f/F/d/D/t/T/R and the epoch integer is the `int()`
truncation toward zero of the epoch-seconds value; illustrated at 10000,
-500, and the fractional negative epoch -9823.237182 (truncating to
-9823, not -9824). -/
theorem claim_C6 :
    (∀ (ts : TSInput) (f : TimestampFormats) (now : DT),
        discord_timestamp ts (.member f) now =
          .ok ("<t:" ++ toString (epochInt ts now) ++ ":" ++ f.val ++ ">")) ∧
    (∀ f : TimestampFormats,
        f.val = "f" ∨ f.val = "F" ∨ f.val = "d" ∨ f.val = "D" ∨ f.val = "t" ∨
          f.val = "T" ∨ f.val = "R") ∧
    (∀ (q : ℚ) (now : DT), epochInt (.posix q) now = pyInt q) ∧
    discord_timestamp (.posix 10000) (.member .DATE_TIME) EPOCH_AWARE =
      .ok "<t:10000:f>" ∧
    discord_timestamp (.posix (-500)) (.member .DATE_TIME) EPOCH_AWARE =
      .ok "<t:-500:f>" ∧
    mkRat (-9823237182) 1000000 = -9823237182 / 1000000 ∧
    discord_timestamp (.posix (mkRat (-9823237182) 1000000)) (.member .DATE_TIME)
        EPOCH_AWARE = .ok "<t:-9823:f>" := by
  refine ⟨fun _ _ _ => rfl, ?_, fun _ _ => rfl, rfl, rfl, ?_, rfl⟩
  · intro f
    cases f <;> simp [TimestampFormats.val]
  · norm_num [Rat.mkRat_eq_div]

/-- C7: a naive reading (no offset) is normalized by tagging it UTC
unchanged, so a naive ISO string renders to the same token as the
equivalent UTC-aware datetime; and
`render_token("2016-12-10T23:55:19") = "<t:1481414119:f>"`. -/
theorem claim_C7 :
    (∀ t : DT, VDT t → ∀ (f : TimestampFormats) (now : DT),
        dtsToken (.text t none) f now = dtsToken (.dtime t (some 0)) f now) ∧
    dtsToken (.text (mkdt 2016 12 10 23 55 19) none) .DATE_TIME EPOCH_AWARE =
      "<t:1481414119:f>" := by
  constructor
  · intro t ht f now
    have h0 : _normalise t (some 0) = t := by
      show addMicro t (-(0 * 1000000)) = t
      have h00 : (-(0 * 1000000) : Int) = 0 := by norm_num
      rw [h00]
      exact addMicro_zero t ht
    unfold dtsToken epochInt
    dsimp only
    rw [h0]
    rfl
  · rfl

/-- Witness for C7: the naive/aware agreement instantiated at the example
datetime. -/
theorem claim_C7_witness :
    VDT (mkdt 2016 12 10 23 55 19) ∧
      dtsToken (.text (mkdt 2016 12 10 23 55 19) none) .DATE_TIME EPOCH_AWARE =
        dtsToken (.dtime (mkdt 2016 12 10 23 55 19) (some 0)) .DATE_TIME
          EPOCH_AWARE :=
  ⟨by decide, claim_C7.1 _ (by decide) .DATE_TIME EPOCH_AWARE⟩

/-- C8: `until_expiration` returns "Permanent" for an absent expiry,
"Expired" when the normalized expiry is before the current instant, and
the RELATIVE token otherwise; in particular
`until_expiration("1000-12-12T00:01:00Z")` is "Expired" from any later
current instant such as 2020-01-01. -/
theorem claim_C8 :
    (∀ now : DT, until_expiration none now = "Permanent") ∧
    (∀ (t : DT) (off : Option Int) (now : DT),
        pyLt (_normalise t off) now = true →
        until_expiration (some (t, off)) now = "Expired") ∧
    (∀ (t : DT) (off : Option Int) (now : DT),
        pyLt (_normalise t off) now = false →
        until_expiration (some (t, off)) now =
          dtsToken (.dtime (_normalise t off) none) .RELATIVE now) ∧
    until_expiration (some (mkdt 1000 12 12 0 1 0, some 0)) (mkdt 2020 1 1 0 0 0) =
      "Expired" := by
  refine ⟨fun _ => rfl, ?_, ?_, rfl⟩
  · intro t off now h
    simp [until_expiration, h]
  · intro t off now h
    simp [until_expiration, h]

/-- Witness for C8: the "Expired" branch instantiated at the example
expiry and a 2020 current instant. -/
theorem claim_C8_witness :
    pyLt (_normalise (mkdt 1000 12 12 0 1 0) (some 0)) (mkdt 2020 1 1 0 0 0) =
        true ∧
      until_expiration (some (mkdt 1000 12 12 0 1 0, some 0))
        (mkdt 2020 1 1 0 0 0) = "Expired" :=
  ⟨by decide, claim_C8.2.1 _ _ _ (by decide)⟩

/-- C9: with an explicit reference, `format_infraction_with_duration`
returns exactly `"<token> (<duration>)"` — at the spec's example inputs it
is `"<t:1576108860:f> (12 hours and 55 seconds)"` — and returns `None` for
a falsy primary; but with the reference ABSENT the code passes the
`arrow.Arrow` object from `arrow.utcnow()` to `relativedelta`, whose
isinstance check raises `TypeError("relativedelta only diffs
datetime/date")`, contradicting the function's own docstring ("Use the
current time if `date_from` is unspecified") — a code bug. -/
theorem claim_C9 :
    format_infraction_with_duration (some (mkdt 2019 12 12 0 1 0, some 0))
        (some (mkdt 2019 12 11 12 0 5, none)) 2 true (mkdt 2020 1 1 0 0 0) =
      .ok (some "<t:1576108860:f> (12 hours and 55 seconds)") ∧
    format_infraction_with_duration (some (mkdt 2019 12 12 0 1 0, some 0)) none 2
        true (mkdt 2020 1 1 0 0 0) =
      .error (.typeError "relativedelta only diffs datetime/date") ∧
    (∀ (date_from : Option (DT × Option Int)) (max_units : Int) (absolute : Bool)
        (utcnow : DT),
        format_infraction_with_duration none date_from max_units absolute utcnow =
          .ok none) :=
  ⟨rfl, rfl, fun _ _ _ _ => rfl⟩
